import Mathlib

/-!
Verification of the "pipeline Bedrock reports" Lambda (src/index.js) against
its natural-language specification.

Modelling conventions (shallow embedding):
* JS strings are modelled as Lean `String` (a wrapper around `List Char`),
  i.e. as sequences of code points; `s.length`, `s.slice`, `s.split`,
  `s.trim`, string concatenation and `Array.prototype.join` are modelled by
  functions on the underlying character list.
* The three AWS clients (S3, Bedrock, SES) are modelled as a deterministic
  oracle record `Env`: listing returns the keys of `ListObjectsV2`'s
  `Contents` in listing order; `GetObject` either throws (`none`) or yields
  the body already decoded to text (the code's `bodyToString` merely drains
  the body to a UTF-8 string, so the oracle returns that string directly);
  `InvokeModel` followed by `JSON.parse` of the response either throws
  (`Except.error`) or yields the `results[0].outputText` field, `none` when
  that field is absent (the code then takes `""` via `?? ""`); `SendEmail`
  either succeeds or throws.
* Exceptions are modelled with `Except Unit`; a JS `try { } catch { }` block
  becomes a `match` on the `Except` value.
* `JSON.parse(rec.Sns.Message)` at src/index.js line 78 is a JS builtin; its
  outcome is modelled by the inductive `SnsMessage`: `absent` when
  `rec.Sns?.Message` is falsy, `malformed` when `JSON.parse` throws, and
  `parsed rs` when it succeeds and `msg?.Records || []` yields `rs`.
* `decodeURIComponent` at line 81 is a JS builtin; `pctDecode` models it:
  percent-escaped octet runs are UTF-8-decoded (throwing on malformed
  escapes or invalid sequences, as the builtin throws `URIError`), other
  characters pass through.
-/

namespace PipelineReports

/-- Model of JS `s.split(sep)` for a one-character separator, on the
character list of a string.  `"".split(sep)` yields `[""]`. -/
def jsSplit (sep : Char) : List Char → List (List Char)
  | [] => [[]]
  | c :: rest =>
    match jsSplit sep rest with
    | [] => [[]]
    | g :: gs => if c = sep then [] :: g :: gs else (c :: g) :: gs

/-- The `/`-separated segments of a key, as strings: `key.split("/")`. -/
def segments (key : String) : List String :=
  (jsSplit '/' key.data).map (fun l => String.mk l)

/-- src/index.js line 30:
`const runOf = key => (key.split("/").length >= 3 ? key.split("/")[1] : null);`
`none` models JS `null`. -/
def runOf (key : String) : Option String :=
  if (segments key).length ≥ 3 then some ((segments key).getD 1 "") else none

/-- JS truthiness of the `run` value (`null` and `""` are falsy). -/
def truthy : Option String → Bool
  | none => false
  | some s => s ≠ ""

/-- Model of JS `s.slice(0, n)`. -/
def jsSlice (s : String) (n : Nat) : String := String.mk (s.data.take n)

/-- src/index.js line 29:
`const truncate = (s, max=60000) => s.length > max ? s.slice(0,max)+`...` : s;`
The appended marker is `"\n...[truncated " + (s.length-max) + " chars]"`. -/
def truncate (s : String) (max : Nat := 60000) : String :=
  if s.length > max then
    jsSlice s max ++ "\n...[truncated " ++ toString (s.length - max) ++ " chars]"
  else s

/-- Model of JS `Array.prototype.join(sep)`. -/
def jsJoin (sep : String) : List String → String
  | [] => ""
  | [x] => x
  | x :: y :: xs => x ++ sep ++ jsJoin sep (y :: xs)

/-- Whitespace characters relevant to JS `String.prototype.trim` for the
strings this program builds. -/
def jsWs (c : Char) : Bool := c = ' ' || c = '\t' || c = '\n' || c = '\r'

/-- Model of JS `s.trim()`: drop whitespace from both ends. -/
def jsTrim (s : String) : String :=
  String.mk (((s.data.dropWhile jsWs).reverse.dropWhile jsWs).reverse)

/-- The per-file delimited section pushed by `listPrefixText` (src/index.js
line 40) and by the single-object fallback (line 94):
`` `\n--- FILE: ${key} ---\n${truncate(text)}` ``. -/
def fileSection (key text : String) : String :=
  "\n--- FILE: " ++ key ++ " ---\n" ++ truncate text

/-- The fixed head of the instructional template of `buildPrompt`
(src/index.js lines 46-61), up to and including the line `<RAW_CI_DATA>`. -/
def promptHead : String :=
  "\nYou are a CI quality assistant. Create a clear, executive-friendly report from the data below.\n\nInclude sections:\n- Build/Test Overview\n- Unit/Integration test summary (pass/fail counts, notable failing tests)\n- Code quality issues from SonarQube (rule types, severities, hotspots)\n- Trends or risks\n- Action items for the team\n\nBe concise and readable for email. If data is missing, state assumptions.\n\n<RAW_CI_DATA>\n"

/-- src/index.js lines 45-62: `buildPrompt(allText)` wraps the aggregated
buffer in the fixed template and calls `.trim()` on the result. -/
def buildPrompt (allText : String) : String :=
  jsTrim (promptHead ++ allText ++ "\n</RAW_CI_DATA>\n")

/-- src/index.js line 116, with `pfx` the `SUBJECT_PREFIX` configuration:
`` `${SUBJECT_PREFIX ? SUBJECT_PREFIX + " " : ""}CI Report ${run ? `- ${run}` : ""}`.trim() ``. -/
def subjectOf (pfx : String) (run : Option String) : String :=
  jsTrim ((if pfx ≠ "" then pfx ++ " " else "") ++ "CI Report " ++
    (if truthy run then "- " ++ run.getD "" else ""))

/-- Modelled from the spec (§4.5, for the refinement claim C5): subject is
composed as `<optional prefix> CI Report<optional " - " + group>` with
surrounding whitespace trimmed. -/
def subjectSpec (pfx : String) (run : Option String) : String :=
  jsTrim ((if pfx ≠ "" then pfx ++ " " else "") ++ "CI Report" ++
    (if truthy run then " - " ++ run.getD "" else ""))

/- ------------------------------------------------------------------ -/
/- Model of the JS builtin decodeURIComponent (used at line 81).       -/
/- ------------------------------------------------------------------ -/

/-- Value of a hexadecimal digit character (code points of `0-9`, `A-F`,
`a-f`), `none` for non-hex characters. -/
def hexVal (c : Char) : Option Nat :=
  let n := c.toNat
  if 48 ≤ n ∧ n ≤ 57 then some (n - 48)
  else if 65 ≤ n ∧ n ≤ 70 then some (n - 55)
  else if 97 ≤ n ∧ n ≤ 102 then some (n - 87)
  else none

/-- First pass of the `decodeURIComponent` model: turn `%XX` escapes into
octets (`Sum.inr`), leave other characters (`Sum.inl`); a `%` not followed
by two hex digits throws. -/
def pctTokens : List Char → Except Unit (List (Sum Char Nat))
  | [] => Except.ok []
  | c :: rest =>
    if c = '%' then
      match rest with
      | h1 :: h2 :: rest2 =>
        match hexVal h1, hexVal h2 with
        | some a, some b => (pctTokens rest2).map (fun ts => Sum.inr (16 * a + b) :: ts)
        | _, _ => Except.error ()
      | _ => Except.error ()
    else
      (pctTokens rest).map (fun ts => Sum.inl c :: ts)

/-- Is `b` a UTF-8 continuation octet? -/
def utf8Cont (b : Nat) : Bool := 128 ≤ b && b < 192

/-- Second pass of the `decodeURIComponent` model: UTF-8-decode the
percent-escaped octet runs; malformed sequences (bad leading octet, missing
continuation, overlong form, surrogate, out-of-range) throw. -/
def decTokens : List (Sum Char Nat) → Except Unit (List Char)
  | [] => Except.ok []
  | Sum.inl c :: ts => (decTokens ts).map (fun l => c :: l)
  | Sum.inr b :: ts =>
    if b < 128 then (decTokens ts).map (fun l => Char.ofNat b :: l)
    else if 194 ≤ b && b < 224 then
      match ts with
      | Sum.inr b2 :: ts2 =>
        if utf8Cont b2 then
          (decTokens ts2).map (fun l => Char.ofNat ((b - 192) * 64 + (b2 - 128)) :: l)
        else Except.error ()
      | _ => Except.error ()
    else if 224 ≤ b && b < 240 then
      match ts with
      | Sum.inr b2 :: Sum.inr b3 :: ts2 =>
        if utf8Cont b2 && utf8Cont b3 then
          let cp := (b - 224) * 4096 + (b2 - 128) * 64 + (b3 - 128)
          if cp < 2048 || (55296 ≤ cp && cp < 57344) then Except.error ()
          else (decTokens ts2).map (fun l => Char.ofNat cp :: l)
        else Except.error ()
      | _ => Except.error ()
    else if 240 ≤ b && b < 245 then
      match ts with
      | Sum.inr b2 :: Sum.inr b3 :: Sum.inr b4 :: ts2 =>
        if utf8Cont b2 && utf8Cont b3 && utf8Cont b4 then
          let cp := (b - 240) * 262144 + (b2 - 128) * 4096 + (b3 - 128) * 64 + (b4 - 128)
          if cp < 65536 || 1114111 < cp then Except.error ()
          else (decTokens ts2).map (fun l => Char.ofNat cp :: l)
        else Except.error ()
      | _ => Except.error ()
    else Except.error ()

/-- Model of the JS builtin `decodeURIComponent`. -/
def pctDecode (s : String) : Except Unit String :=
  match pctTokens s.data with
  | Except.error e => Except.error e
  | Except.ok ts =>
    match decTokens ts with
    | Except.error e => Except.error e
    | Except.ok l => Except.ok (String.mk l)

/-- Model of JS `key.replace(/\+/g, " ")`. -/
def plusToSpace (s : String) : String :=
  String.mk (s.data.map (fun c => if c = '+' then ' ' else c))

/-- src/index.js line 81:
`const key = decodeURIComponent(r.s3.object.key.replace(/\+/g, " "));`
(`+` to space first, then percent-decode; the builtin may throw). -/
def decodeKey (raw : String) : Except Unit String := pctDecode (plusToSpace raw)

/- ------------------------------------------------------------------ -/
/- The handler and its collaborating services.                         -/
/- ------------------------------------------------------------------ -/

/-- Deterministic oracle for the three AWS clients plus the
`EMAIL_SUBJECT_PREFIX` configuration (the `ARTIFACT_BUCKET` is implicit in
the oracles, since every call uses the same `BUCKET`). -/
structure Env where
  list : String → List String
  get : String → Option String
  bedrock : String → Except Unit (Option String)
  sesOk : String → String → Bool
  subjectPfx : String

/-- One inner S3 object-creation record: only `r.s3.object.key` is read by
the handler (the record's bucket field is unused; every S3 call passes the
configured `BUCKET`). -/
structure S3Rec where
  rawKey : String

/-- Outcome of `rec.Sns?.Message ? JSON.parse(rec.Sns.Message) : null`
followed by `msg?.Records || []` (src/index.js lines 78-79). -/
inductive SnsMessage where
  | absent
  | malformed
  | parsed (records : List S3Rec)

/-- One outer record of the invocation payload (`event.Records`). -/
structure OuterRec where
  message : SnsMessage

/-- Observable values produced while processing one inner record
(src/index.js lines 81-118). -/
structure RecordTrace where
  key : String
  run : Option String
  collected : String
  promptArg : String
  report : String
  subject : String
  emailBody : String
  emailSent : Bool

/-- Body of the loop of `listPrefixText` (src/index.js lines 36-41): for
each listed key, skip falsy keys (`if (!obj.Key) continue`), fetch the
object (a failed fetch throws), and build its delimited section. -/
def sectionsFor (env : Env) : List String → Except Unit (List String)
  | [] => Except.ok []
  | k :: ks =>
    if k = "" then sectionsFor env ks
    else
      match env.get k with
      | none => Except.error ()
      | some t => (sectionsFor env ks).map (fun rest => fileSection k t :: rest)

/-- src/index.js lines 32-43: list a prefix, fetch every listed object,
and join the delimited sections with `"\n"`. -/
def listPrefixText (env : Env) (pfx : String) : Except Unit String :=
  (sectionsFor env (env.list pfx)).map (jsJoin "\n")

/-- src/index.js lines 87-91: the two prefix listings when `run` is truthy
(`if (run) { ... }`), joining the non-empty results with `"\n"`; `""` when
`run` is falsy.  An `Except.error` is a thrown S3 read error. -/
def listStage (env : Env) (key : String) : Except Unit String :=
  if truthy (runOf key) then
    match listPrefixText env ("test-results/" ++ (runOf key).getD "" ++ "/") with
    | Except.error e => Except.error e
    | Except.ok tests =>
      match listPrefixText env ("sonarqube/" ++ (runOf key).getD "" ++ "/") with
      | Except.error e => Except.error e
      | Except.ok sonar =>
        Except.ok (jsJoin "\n" ([tests, sonar].filter (fun s => s ≠ "")))
  else Except.ok ""

/-- The body of the `try` block at src/index.js lines 86-96: the listing
stage, then the single-object fallback (`if (!collected) { ... }`) when the
joined buffer is empty. -/
def tryCollect (env : Env) (key : String) : Except Unit String :=
  match listStage env key with
  | Except.error e => Except.error e
  | Except.ok collected =>
    if collected = "" then
      match env.get key with
      | none => Except.error ()
      | some t => Except.ok (fileSection key t)
    else Except.ok collected

/-- Value of `collected` after the `try`/`catch` at src/index.js lines
85-96: on a thrown S3 read error the catch block leaves `collected` at `""`
(every assignment that could have made it non-empty happens after the last
possible throw point only when no throw occurred). -/
def collectedOf (env : Env) (key : String) : String :=
  match tryCollect env key with
  | Except.error _ => ""
  | Except.ok c => c

/-- The argument passed to `buildPrompt` at src/index.js line 100:
`collected || "(no CI data found)"`. -/
def promptArgOf (env : Env) (key : String) : String :=
  if collectedOf env key = "" then "(no CI data found)" else collectedOf env key

/-- Value of `report` after the `try`/`catch` at src/index.js lines 98-114:
the parsed `results[0].outputText ?? ""` on success, and the fallback
`"Bedrock failed to generate a report.\n\n" + (collected || "(no CI data captured)")`
when the Bedrock call (or response decoding) throws. -/
def reportOf (env : Env) (key : String) : String :=
  match env.bedrock (buildPrompt (promptArgOf env key)) with
  | Except.error _ =>
    "Bedrock failed to generate a report.\n\n" ++
      (if collectedOf env key = "" then "(no CI data captured)" else collectedOf env key)
  | Except.ok o => o.getD ""

/-- Processing of one inner record once its key has been decoded
(src/index.js lines 82-118).  The email body is
`report || "(empty report)"`; `emailSent` records whether the SES call
succeeded (a throw is caught and only logged). -/
def processDecoded (env : Env) (key : String) : RecordTrace :=
  let report := reportOf env key
  let subject := subjectOf env.subjectPfx (runOf key)
  let body := if report = "" then "(empty report)" else report
  { key := key
    run := runOf key
    collected := collectedOf env key
    promptArg := promptArgOf env key
    report := report
    subject := subject
    emailBody := body
    emailSent := env.sesOk subject body }

/-- Processing of one inner record including the key decoding at line 81,
which sits outside every `try` block: a `URIError` from
`decodeURIComponent` propagates. -/
def processS3Record (env : Env) (r : S3Rec) : Except Unit RecordTrace :=
  (decodeKey r.rawKey).map (processDecoded env)

/-- The inner loop over `s3Recs` (src/index.js lines 80-119).  Returns the
traces of the records processed and whether the loop ran to completion
(`false` means an uncaught throw escaped, abandoning the remaining
records). -/
def processInnerList (env : Env) : List S3Rec → List RecordTrace × Bool
  | [] => ([], true)
  | r :: rs =>
    match processS3Record env r with
    | Except.error _ => ([], false)
    | Except.ok t =>
      let rest := processInnerList env rs
      (t :: rest.1, rest.2)

/-- The outer loop of the handler over `event.Records` (src/index.js lines
77-120).  `JSON.parse(rec.Sns.Message)` at line 78 is outside every `try`
block, so a malformed message throws out of the handler.  Returns the
traces of all inner records processed, and `true` exactly when the handler
ran to completion and returned `{ ok: true }`. -/
def handlerRun (env : Env) : List OuterRec → List RecordTrace × Bool
  | [] => ([], true)
  | ⟨SnsMessage.absent⟩ :: rest => handlerRun env rest
  | ⟨SnsMessage.malformed⟩ :: _ => ([], false)
  | ⟨SnsMessage.parsed rs⟩ :: rest =>
    let inner := processInnerList env rs
    if inner.2 then
      let next := handlerRun env rest
      (inner.1 ++ next.1, next.2)
    else (inner.1, false)

/-- An outer record that cannot make the handler throw: its message is
absent or parses, and every carried key percent-decodes. -/
def WFOuter (r : OuterRec) : Prop :=
  match r.message with
  | SnsMessage.malformed => False
  | SnsMessage.absent => True
  | SnsMessage.parsed rs => ∀ s ∈ rs, ∃ k, decodeKey s.rawKey = Except.ok k

/-- Concrete oracle: empty listings, every fetch returns `"DATA"`, the
Bedrock call always throws, SES always succeeds, no subject prefix. -/
def envFail : Env where
  list := fun _ => []
  get := fun _ => some "DATA"
  bedrock := fun _ => Except.error ()
  sesOk := fun _ _ => true
  subjectPfx := ""

/-- Concrete oracle: two objects listed under `test-results/r1/`, one under
`sonarqube/r1/`, every fetch succeeds, Bedrock succeeds. -/
def env7 : Env where
  list := fun p =>
    if p = "test-results/r1/" then ["test-results/r1/a.xml", "test-results/r1/b.xml"]
    else if p = "sonarqube/r1/" then ["sonarqube/r1/s.log"]
    else []
  get := fun k => some ("content of " ++ k)
  bedrock := fun _ => Except.ok (some "SUMMARY")
  sesOk := fun _ _ => true
  subjectPfx := "[CI]"

/- ------------------------------------------------------------------ -/
/- Basic facts about the string model.                                 -/
/- ------------------------------------------------------------------ -/

theorem data_append (s t : String) : (s ++ t).data = s.data ++ t.data := rfl

theorem string_length_eq (s : String) : s.length = s.data.length := rfl

theorem str_append_assoc (a b c : String) : (a ++ b) ++ c = a ++ (b ++ c) := by
  apply String.ext
  simp [data_append]

theorem str_append_empty (s : String) : s ++ "" = s := by
  apply String.ext
  simp [data_append]

theorem fileSection_ne_empty (key text : String) : fileSection key text ≠ "" := by
  intro h
  have h2 : (fileSection key text).data = ("" : String).data := congrArg String.data h
  simp only [fileSection, data_append] at h2
  have h3 : ("\n--- FILE: " : String).data = [] := (List.append_eq_nil.mp
    ((List.append_eq_nil.mp ((List.append_eq_nil.mp h2).1)).1)).1
  exact absurd h3 (by decide)

theorem append_ne_empty_left (s t : String) (h : s ≠ "") : s ++ t ≠ "" := by
  intro h2
  apply h
  have h3 : s.data ++ t.data = [] := congrArg String.data h2
  exact String.ext (List.append_eq_nil.mp h3).1

theorem jsTrim_append_space (s : String) : jsTrim (s ++ " ") = jsTrim s := by
  have hdata : (s ++ " ").data = s.data ++ [' '] := rfl
  unfold jsTrim
  rw [hdata, List.dropWhile_append]
  by_cases hd : (s.data.dropWhile jsWs).isEmpty
  · rw [if_pos hd]
    have h0 : s.data.dropWhile jsWs = [] := by
      cases h : s.data.dropWhile jsWs with
      | nil => rfl
      | cons a l => rw [h] at hd; simp [List.isEmpty] at hd
    rw [h0]
    rfl
  · rw [if_neg hd]
    have h1 : (s.data.dropWhile jsWs ++ [' ']).reverse
        = ' ' :: (s.data.dropWhile jsWs).reverse := by simp
    rw [h1]
    have h2 : List.dropWhile jsWs (' ' :: (s.data.dropWhile jsWs).reverse)
        = List.dropWhile jsWs ((s.data.dropWhile jsWs).reverse) := rfl
    rw [h2]

/- ------------------------------------------------------------------ -/
/- Claim C3: grouping-key derivation.                                  -/
/- ------------------------------------------------------------------ -/

/-- Claim C3: splitting an object key on `/` yields the grouping key as
follows: with at least three segments the grouping key is the second
segment; with fewer than three segments no grouping key is derived. -/
theorem runOf_second_segment (key : String) :
    (3 ≤ (segments key).length → runOf key = some ((segments key).getD 1 "")) ∧
    ((segments key).length < 3 → runOf key = none) := by
  constructor
  · intro h
    simp [runOf, h]
  · intro h
    simp [runOf]
    omega

/-- Witness for C3 at concrete keys: `"test-results/vpc/unit.xml"` has three
segments and grouping key `"vpc"`; `"a/b"` has two segments and none. -/
theorem runOf_second_segment_witness :
    runOf "test-results/vpc/unit.xml" = some "vpc" ∧ runOf "a/b" = none := by
  constructor
  · have h := (runOf_second_segment "test-results/vpc/unit.xml").1 (by decide)
    simpa using h
  · exact (runOf_second_segment "a/b").2 (by decide)

/- ------------------------------------------------------------------ -/
/- Claim C4: per-file truncation.                                      -/
/- ------------------------------------------------------------------ -/

/-- Claim C4: for input strictly longer than the ceiling, the truncation
output is exactly the ceiling-length prefix of the input followed by a marker
stating the exact number of omitted characters (length minus ceiling); at or
under the ceiling the input passes through unchanged. -/
theorem truncate_spec (s : String) (max : Nat) :
    (s.length > max →
      truncate s max =
        jsSlice s max ++ "\n...[truncated " ++ toString (s.length - max) ++ " chars]" ∧
      (jsSlice s max).length = max ∧
      (jsSlice s max).data = s.data.take max) ∧
    (s.length ≤ max → truncate s max = s) := by
  constructor
  · intro h
    refine ⟨by simp [truncate, h], ?_, rfl⟩
    have hlen : s.data.length > max := h
    have h1 : (jsSlice s max).length = (s.data.take max).length := rfl
    rw [h1, List.length_take]
    omega
  · intro h
    simp [truncate]
    omega

/-- Witness for C4: `"abcdef"` with ceiling 3 truncates to
`"abc\n...[truncated 3 chars]"`; `"ab"` with ceiling 3 is unchanged. -/
theorem truncate_spec_witness :
    truncate "abcdef" 3 = "abc\n...[truncated 3 chars]" ∧ truncate "ab" 3 = "ab" := by
  constructor
  · have h := ((truncate_spec "abcdef" 3).1 (by decide)).1
    rw [h]; decide
  · exact (truncate_spec "ab" 3).2 (by decide)

/- ------------------------------------------------------------------ -/
/- Claim C5: subject construction.                                     -/
/- ------------------------------------------------------------------ -/

theorem subjectOf_eq_subjectSpec (pfx : String) (run : Option String) :
    subjectOf pfx run = subjectSpec pfx run := by
  have e2 : ("CI Report " : String) = "CI Report" ++ " " := by decide
  unfold subjectOf subjectSpec
  by_cases h : truthy run = true
  · rw [if_pos h, if_pos h]
    refine congrArg jsTrim ?_
    rw [str_append_assoc, str_append_assoc]
    congr 1
  · rw [if_neg h, if_neg h, str_append_empty, str_append_empty, e2,
      ← str_append_assoc, jsTrim_append_space]

/-- Claim C5: the email subject equals the optional prefix, then the fixed
label `CI Report`, then optionally `" - "` plus the grouping key, with
surrounding whitespace trimmed; with prefix `"[CI]"` and group `"vpc"` the
subject is `"[CI] CI Report - vpc"`, and with no prefix and no group it is
`"CI Report"`. -/
theorem subject_construction :
    (∀ (env : Env) (key : String),
      (processDecoded env key).subject = subjectSpec env.subjectPfx (runOf key)) ∧
    subjectOf "[CI]" (some "vpc") = "[CI] CI Report - vpc" ∧
    subjectOf "" none = "CI Report" := by
  refine ⟨?_, by decide, by decide⟩
  intro env key
  show subjectOf env.subjectPfx (runOf key) = subjectSpec env.subjectPfx (runOf key)
  exact subjectOf_eq_subjectSpec _ _

/- ------------------------------------------------------------------ -/
/- Claim C10: non-empty email body and prompt argument.                -/
/- ------------------------------------------------------------------ -/

/-- Claim C10: for every record reaching the delivery stage, the body
passed to the send call is never empty — it is the generated summary when
non-empty and the literal `"(empty report)"` otherwise; likewise the prompt
is built over a non-empty buffer, `"(no CI data found)"` being substituted
when the aggregated buffer is empty. -/
theorem email_body_nonempty (env : Env) (key : String) :
    (processDecoded env key).emailBody ≠ "" ∧
    (processDecoded env key).emailBody =
      (if (processDecoded env key).report = "" then "(empty report)"
       else (processDecoded env key).report) ∧
    (processDecoded env key).promptArg ≠ "" ∧
    (processDecoded env key).promptArg =
      (if (processDecoded env key).collected = "" then "(no CI data found)"
       else (processDecoded env key).collected) := by
  refine ⟨?_, rfl, ?_, rfl⟩
  · show (if reportOf env key = "" then "(empty report)" else reportOf env key) ≠ ""
    by_cases h : reportOf env key = "" <;> simp [h]
  · show (if collectedOf env key = "" then "(no CI data found)"
      else collectedOf env key) ≠ ""
    by_cases h : collectedOf env key = "" <;> simp [h]

/- ------------------------------------------------------------------ -/
/- Claim C2: Bedrock failure fallback.                                 -/
/- ------------------------------------------------------------------ -/

/-- Claim C2: any failure of the summary-generation call is not raised to
the caller — the resulting summary is the fixed failure notice followed by
the full original aggregated buffer (or the placeholder when that buffer is
empty), and processing still reaches the delivery stage. -/
theorem bedrock_failure_fallback (env : Env) (key : String)
    (h : env.bedrock (buildPrompt (promptArgOf env key)) = Except.error ()) :
    reportOf env key =
      "Bedrock failed to generate a report.\n\n" ++
        (if collectedOf env key = "" then "(no CI data captured)"
         else collectedOf env key) ∧
    (processDecoded env key).report = reportOf env key ∧
    (processDecoded env key).emailSent =
      env.sesOk (processDecoded env key).subject (processDecoded env key).emailBody := by
  refine ⟨?_, rfl, rfl⟩
  unfold reportOf
  rw [h]

/-- Witness for C2: under `envFail` (whose Bedrock call always throws) the
record `"a/b/c"` yields the fallback summary carrying the aggregated
buffer. -/
theorem bedrock_failure_fallback_witness :
    envFail.bedrock (buildPrompt (promptArgOf envFail "a/b/c")) = Except.error () ∧
    reportOf envFail "a/b/c" =
      "Bedrock failed to generate a report.\n\n\n--- FILE: a/b/c ---\nDATA" := by
  refine ⟨rfl, ?_⟩
  have h := (bedrock_failure_fallback envFail "a/b/c" rfl).1
  rw [h]
  decide

/- ------------------------------------------------------------------ -/
/- Claim C9: empty second segment behaves as an absent grouping key.   -/
/- ------------------------------------------------------------------ -/

/-- Claim C9: a key with at least three segments whose second segment is
empty (e.g. `"a//b"`) derives the empty-string grouping key, which the
program treats exactly as an absent one: no prefix listings are attempted
(only the single triggering object is fetched) and the subject carries no
group suffix. -/
theorem empty_run_treated_as_absent :
    runOf "a//b" = some "" ∧
    (∀ (env : Env) (key : String), runOf key = some "" →
      collectedOf env key =
        (match env.get key with
         | none => ""
         | some t => fileSection key t)) ∧
    (∀ pfx : String, subjectOf pfx (some "") = subjectOf pfx none) := by
  refine ⟨rfl, ?_, fun _ => rfl⟩
  intro env key h
  unfold collectedOf tryCollect listStage
  rw [h]
  cases hg : env.get key with
  | none => rfl
  | some t => rfl

/-- Witness for C9: under `envFail`, the key `"a//b"` (second segment
empty) is aggregated by fetching only the triggering object itself. -/
theorem empty_run_treated_as_absent_witness :
    runOf "a//b" = some "" ∧
    collectedOf envFail "a//b" = fileSection "a//b" "DATA" := by
  refine ⟨empty_run_treated_as_absent.1, ?_⟩
  have h := empty_run_treated_as_absent.2.1 envFail "a//b" rfl
  rw [h]
  rfl

/- ------------------------------------------------------------------ -/
/- Aggregation lemmas (for claims C6 and C7).                          -/
/- ------------------------------------------------------------------ -/

theorem sectionsFor_ok (env : Env) (keys : List String)
    (h : ∀ k ∈ keys, k ≠ "" → env.get k ≠ none) :
    sectionsFor env keys =
      Except.ok ((keys.filter (fun x => x ≠ "")).map
        (fun x => fileSection x ((env.get x).getD ""))) := by
  induction keys with
  | nil => rfl
  | cons k ks ih =>
    have ihh := ih (fun x hx hne => h x (List.mem_cons_of_mem _ hx) hne)
    by_cases hk : k = ""
    · subst hk
      show sectionsFor env ks = _
      rw [ihh]
      rfl
    · cases hgk : env.get k with
      | none => exact absurd hgk (h k (List.mem_cons_self _ _) hk)
      | some t =>
        have e : sectionsFor env (k :: ks) =
            (sectionsFor env ks).map (fun rest => fileSection k t :: rest) := by
          show (if k = "" then sectionsFor env ks
            else
              match env.get k with
              | none => Except.error ()
              | some t => (sectionsFor env ks).map (fun rest => fileSection k t :: rest)) = _
          rw [if_neg hk, hgk]
        have hfk : (k :: ks).filter (fun x => x ≠ "") =
            k :: ks.filter (fun x => x ≠ "") := by
          simp [List.filter_cons, hk]
        rw [e, ihh, hfk]
        simp [Except.map, hgk]

theorem listPrefixText_ok (env : Env) (pfx : String)
    (h : ∀ k ∈ env.list pfx, k ≠ "" → env.get k ≠ none) :
    listPrefixText env pfx =
      Except.ok (jsJoin "\n" (((env.list pfx).filter (fun x => x ≠ "")).map
        (fun x => fileSection x ((env.get x).getD "")))) := by
  unfold listPrefixText
  rw [sectionsFor_ok env _ h]
  rfl

theorem jsJoin_ne_empty (sep : String) : ∀ l : List String,
    l ≠ [] → (∀ x ∈ l, x ≠ "") → jsJoin sep l ≠ ""
  | [], hl, _ => absurd rfl hl
  | [x], _, h => h x (List.mem_singleton.mpr rfl)
  | x :: y :: xs, _, h => by
    show (x ++ sep) ++ jsJoin sep (y :: xs) ≠ ""
    exact append_ne_empty_left _ _
      (append_ne_empty_left _ _ (h x (List.mem_cons_self _ _)))

theorem jsJoin_append (sep : String) : ∀ (A B : List String), A ≠ [] → B ≠ [] →
    jsJoin sep (A ++ B) = (jsJoin sep A ++ sep) ++ jsJoin sep B
  | [], _, hA, _ => absurd rfl hA
  | [x], B, _, hB => by
    cases B with
    | nil => exact absurd rfl hB
    | cons b bs => rfl
  | x :: y :: xs, B, _, hB => by
    have ih := jsJoin_append sep (y :: xs) B (by simp) hB
    show (x ++ sep) ++ jsJoin sep ((y :: xs) ++ B) =
      (((x ++ sep) ++ jsJoin sep (y :: xs)) ++ sep) ++ jsJoin sep B
    rw [ih]
    simp [str_append_assoc]

theorem join_filter_pair (A B : List String)
    (hA : ∀ x ∈ A, x ≠ "") (hB : ∀ x ∈ B, x ≠ "") (hAB : A ++ B ≠ []) :
    jsJoin "\n" ([jsJoin "\n" A, jsJoin "\n" B].filter (fun s => s ≠ "")) =
      jsJoin "\n" (A ++ B) := by
  by_cases ha : A = []
  · subst ha
    have hb : B ≠ [] := by simpa using hAB
    have hBne : jsJoin "\n" B ≠ "" := jsJoin_ne_empty "\n" B hb hB
    simp [List.filter_cons, hBne, jsJoin]
  · by_cases hb : B = []
    · subst hb
      have hAne : jsJoin "\n" A ≠ "" := jsJoin_ne_empty "\n" A ha hA
      simp [List.filter_cons, hAne, jsJoin]
    · have hAne : jsJoin "\n" A ≠ "" := jsJoin_ne_empty "\n" A ha hA
      have hBne : jsJoin "\n" B ≠ "" := jsJoin_ne_empty "\n" B hb hB
      rw [jsJoin_append "\n" A B ha hb]
      simp [List.filter_cons, hAne, hBne, jsJoin]

theorem listStage_eval (env : Env) (key r T S : String)
    (hr : runOf key = some r) (hne : r ≠ "")
    (hT : listPrefixText env ("test-results/" ++ r ++ "/") = Except.ok T)
    (hS : listPrefixText env ("sonarqube/" ++ r ++ "/") = Except.ok S) :
    listStage env key =
      Except.ok (jsJoin "\n" ([T, S].filter (fun s => s ≠ ""))) := by
  have htr : truthy (runOf key) = true := by rw [hr]; simp [truthy, hne]
  unfold listStage
  rw [if_pos htr, hr]
  simp only [Option.getD_some]
  rw [hT, hS]

theorem collectedOf_of_listStage (env : Env) (key c : String)
    (h : listStage env key = Except.ok c) (hc : c ≠ "") :
    collectedOf env key = c := by
  unfold collectedOf tryCollect
  rw [h]
  show (match (if c = "" then
      (match env.get key with
       | none => Except.error ()
       | some t => Except.ok (fileSection key t))
    else Except.ok c : Except Unit String) with
    | Except.error _ => ""
    | Except.ok x => x) = c
  rw [if_neg hc]

theorem collectedOf_fallback (env : Env) (key : String)
    (h : listStage env key = Except.ok "") :
    collectedOf env key =
      (match env.get key with
       | none => ""
       | some t => fileSection key t) := by
  unfold collectedOf tryCollect
  rw [h]
  cases hg : env.get key with
  | none => rfl
  | some t => rfl

/- ------------------------------------------------------------------ -/
/- Claim C6: single-object fallback.                                   -/
/- ------------------------------------------------------------------ -/

/-- Claim C6: for a record with no grouping key, or whose two prefix
listings together produce no content, the aggregator falls back to fetching
exactly the single triggering object, wrapped in the same delimited-section
format as listed objects. -/
theorem fallback_single_object (env : Env) (key body : String)
    (hget : env.get key = some body)
    (hempty : ∀ r, runOf key = some r → r ≠ "" →
      (env.list ("test-results/" ++ r ++ "/")).filter (fun x => x ≠ "") = [] ∧
      (env.list ("sonarqube/" ++ r ++ "/")).filter (fun x => x ≠ "") = []) :
    collectedOf env key = fileSection key body := by
  have hstage : listStage env key = Except.ok "" := by
    cases hr : runOf key with
    | none =>
      unfold listStage
      rw [hr]
      rfl
    | some r =>
      by_cases hne : r = ""
      · subst hne
        unfold listStage
        rw [hr]
        rfl
      · obtain ⟨h1, h2⟩ := hempty r hr hne
        have hvacT : ∀ k ∈ env.list ("test-results/" ++ r ++ "/"),
            k ≠ "" → env.get k ≠ none := by
          intro k hkmem hkne
          have hmem : k ∈ (env.list ("test-results/" ++ r ++ "/")).filter
              (fun x => x ≠ "") := List.mem_filter.mpr ⟨hkmem, decide_eq_true hkne⟩
          rw [h1] at hmem
          exact absurd hmem (List.not_mem_nil k)
        have hvacS : ∀ k ∈ env.list ("sonarqube/" ++ r ++ "/"),
            k ≠ "" → env.get k ≠ none := by
          intro k hkmem hkne
          have hmem : k ∈ (env.list ("sonarqube/" ++ r ++ "/")).filter
              (fun x => x ≠ "") := List.mem_filter.mpr ⟨hkmem, decide_eq_true hkne⟩
          rw [h2] at hmem
          exact absurd hmem (List.not_mem_nil k)
        have hT0 := listPrefixText_ok env ("test-results/" ++ r ++ "/") hvacT
        rw [h1] at hT0
        have hS0 := listPrefixText_ok env ("sonarqube/" ++ r ++ "/") hvacS
        rw [h2] at hS0
        have hT : listPrefixText env ("test-results/" ++ r ++ "/") =
            Except.ok "" := hT0
        have hS : listPrefixText env ("sonarqube/" ++ r ++ "/") =
            Except.ok "" := hS0
        exact listStage_eval env key r "" "" hr hne hT hS
  rw [collectedOf_fallback env key hstage, hget]

/-- Witness for C6: under `envFail` (empty listings everywhere) the record
`"a/b/c"` is aggregated as exactly the one section of the triggering
object. -/
theorem fallback_single_object_witness :
    envFail.get "a/b/c" = some "DATA" ∧
    collectedOf envFail "a/b/c" = fileSection "a/b/c" "DATA" := by
  refine ⟨rfl, ?_⟩
  exact fallback_single_object envFail "a/b/c" "DATA" rfl (fun r _ _ => ⟨rfl, rfl⟩)

/- ------------------------------------------------------------------ -/
/- Claim C7: aggregation order.                                        -/
/- ------------------------------------------------------------------ -/

/-- Claim C7: for a fixed set of listed keys (all fetches succeeding), the
aggregated buffer is the `"\n"`-join of the per-file sections in listing
order, every test-results section preceding every sonarqube section, each
section preceded by a delimiter line naming its source key (see
`fileSection`). -/
theorem aggregation_order (env : Env) (key r : String)
    (hr : runOf key = some r) (hne : r ≠ "")
    (tks sks : List String)
    (htks : tks = (env.list ("test-results/" ++ r ++ "/")).filter (fun x => x ≠ ""))
    (hsks : sks = (env.list ("sonarqube/" ++ r ++ "/")).filter (fun x => x ≠ ""))
    (hget : ∀ k ∈ tks ++ sks, env.get k ≠ none)
    (hnil : tks ++ sks ≠ []) :
    collectedOf env key =
      jsJoin "\n" ((tks ++ sks).map (fun x => fileSection x ((env.get x).getD ""))) := by
  have hgT : ∀ k ∈ env.list ("test-results/" ++ r ++ "/"), k ≠ "" → env.get k ≠ none := by
    intro k hk hkne
    refine hget k (List.mem_append_left _ ?_)
    rw [htks]
    exact List.mem_filter.mpr ⟨hk, decide_eq_true hkne⟩
  have hgS : ∀ k ∈ env.list ("sonarqube/" ++ r ++ "/"), k ≠ "" → env.get k ≠ none := by
    intro k hk hkne
    refine hget k (List.mem_append_right _ ?_)
    rw [hsks]
    exact List.mem_filter.mpr ⟨hk, decide_eq_true hkne⟩
  have hT : listPrefixText env ("test-results/" ++ r ++ "/") =
      Except.ok (jsJoin "\n" (tks.map (fun x => fileSection x ((env.get x).getD "")))) := by
    rw [htks]
    exact listPrefixText_ok env _ hgT
  have hS : listPrefixText env ("sonarqube/" ++ r ++ "/") =
      Except.ok (jsJoin "\n" (sks.map (fun x => fileSection x ((env.get x).getD "")))) := by
    rw [hsks]
    exact listPrefixText_ok env _ hgS
  have hstage := listStage_eval env key r _ _ hr hne hT hS
  have hFne : ∀ (l : List String),
      ∀ x ∈ l.map (fun x => fileSection x ((env.get x).getD "")), x ≠ "" := by
    intro l x hx
    obtain ⟨k, _, hk⟩ := List.mem_map.mp hx
    rw [← hk]
    exact fileSection_ne_empty _ _
  have hmapnil : tks.map (fun x => fileSection x ((env.get x).getD "")) ++
      sks.map (fun x => fileSection x ((env.get x).getD "")) ≠ [] := by
    rw [← List.map_append]
    intro h
    exact hnil (List.map_eq_nil_iff.mp h)
  have hjoin := join_filter_pair
    (tks.map (fun x => fileSection x ((env.get x).getD "")))
    (sks.map (fun x => fileSection x ((env.get x).getD "")))
    (hFne tks) (hFne sks) hmapnil
  rw [hjoin] at hstage
  have hcolne : jsJoin "\n" (tks.map (fun x => fileSection x ((env.get x).getD "")) ++
      sks.map (fun x => fileSection x ((env.get x).getD ""))) ≠ "" := by
    refine jsJoin_ne_empty "\n" _ hmapnil ?_
    intro x hx
    rcases List.mem_append.mp hx with h | h
    · exact hFne tks x h
    · exact hFne sks x h
  rw [collectedOf_of_listStage env key _ hstage hcolne, ← List.map_append]

/-- Witness for C7: under `env7` the key `"test-results/r1/a.xml"` (run
`"r1"`) aggregates the two test-results sections followed by the sonarqube
section, in listing order. -/
theorem aggregation_order_witness :
    runOf "test-results/r1/a.xml" = some "r1" ∧
    collectedOf env7 "test-results/r1/a.xml" =
      jsJoin "\n"
        ((["test-results/r1/a.xml", "test-results/r1/b.xml"] ++
          ["sonarqube/r1/s.log"]).map
          (fun x => fileSection x ((env7.get x).getD ""))) := by
  refine ⟨rfl, ?_⟩
  exact aggregation_order env7 "test-results/r1/a.xml" "r1" rfl (by decide)
    ["test-results/r1/a.xml", "test-results/r1/b.xml"] ["sonarqube/r1/s.log"]
    rfl rfl (fun k _ h => Option.noConfusion h) (by decide)

/- ------------------------------------------------------------------ -/
/- Claim C8: key decoding.                                             -/
/- ------------------------------------------------------------------ -/

/-- Claim C8: the key used by all downstream steps is the raw record key
with every `+` converted to a space and then percent-decoded, before any
grouping-key derivation or fetch. -/
theorem key_decoding (env : Env) (raw k : String)
    (h : pctDecode (plusToSpace raw) = Except.ok k) :
    processS3Record env (S3Rec.mk raw) = Except.ok (processDecoded env k) ∧
    (processDecoded env k).key = k ∧
    (processDecoded env k).run = runOf k := by
  refine ⟨?_, rfl, rfl⟩
  unfold processS3Record decodeKey
  rw [h]
  rfl

/-- Witness for C8 showing the order of the two transformations: in
`"a%2Bb+c"` the literal `+` becomes a space first, then `%2B` decodes to
`+`, so the run segment is `"a+b c"` (decoding first would have produced
`"a b c"`). -/
theorem key_decoding_witness :
    pctDecode (plusToSpace "test-results/a%2Bb+c/unit.xml") =
      Except.ok "test-results/a+b c/unit.xml" ∧
    processS3Record envFail (S3Rec.mk "test-results/a%2Bb+c/unit.xml") =
      Except.ok (processDecoded envFail "test-results/a+b c/unit.xml") ∧
    runOf "test-results/a+b c/unit.xml" = some "a+b c" := by
  refine ⟨rfl, ?_, rfl⟩
  exact (key_decoding envFail "test-results/a%2Bb+c/unit.xml"
    "test-results/a+b c/unit.xml" rfl).1

/- ------------------------------------------------------------------ -/
/- Claim C1: malformed outer records and handler completion.           -/
/- ------------------------------------------------------------------ -/

theorem processInnerList_complete (env : Env) (rs : List S3Rec)
    (h : ∀ s ∈ rs, ∃ k, decodeKey s.rawKey = Except.ok k) :
    (processInnerList env rs).2 = true := by
  induction rs with
  | nil => rfl
  | cons r rest ih =>
    obtain ⟨k, hk⟩ := h r (List.mem_cons_self r rest)
    have hp : processS3Record env r = Except.ok (processDecoded env k) := by
      unfold processS3Record
      rw [hk]
      rfl
    unfold processInnerList
    rw [hp]
    exact ih (fun s hs => h s (List.mem_cons_of_mem _ hs))

theorem handlerRun_parsed_true (env : Env) (rs : List S3Rec) (rest : List OuterRec)
    (h : (processInnerList env rs).2 = true) :
    handlerRun env (OuterRec.mk (SnsMessage.parsed rs) :: rest) =
      ((processInnerList env rs).1 ++ (handlerRun env rest).1,
       (handlerRun env rest).2) := by
  show (if (processInnerList env rs).2 = true then
      ((processInnerList env rs).1 ++ (handlerRun env rest).1,
       (handlerRun env rest).2)
    else ((processInnerList env rs).1, false)) =
    ((processInnerList env rs).1 ++ (handlerRun env rest).1, (handlerRun env rest).2)
  rw [if_pos h]

/-- Counterexample to C1 as stated: under `envFail`, a payload whose first
outer record carries a malformed `Sns.Message` and whose second is valid —
the handler throws at the first record, the second record is never
processed (no trace, hence no email delivery), and the success indicator
`{ ok: true }` is never returned (completion flag `false`). -/
theorem malformed_message_aborts_invocation :
    handlerRun envFail
      [OuterRec.mk SnsMessage.malformed,
       OuterRec.mk (SnsMessage.parsed [S3Rec.mk "a/b/c"])] = ([], false) := rfl

/-- Claim C1 as amended: `JSON.parse` of a malformed `Sns.Message` is not
caught — the handler aborts there, keeping the traces of the records
already processed and returning no success indicator; when every outer
record is well formed (message absent or parsed, all keys decodable) the
handler runs to completion and returns `{ ok: true }` regardless of
per-record S3/Bedrock/SES outcomes (the oracle `env` is arbitrary). -/
theorem handler_malformed_aborts_wellformed_completes :
    (∀ (env : Env) (pre post : List OuterRec), (∀ r ∈ pre, WFOuter r) →
      handlerRun env (pre ++ OuterRec.mk SnsMessage.malformed :: post) =
        ((handlerRun env pre).1, false)) ∧
    (∀ (env : Env) (recs : List OuterRec), (∀ r ∈ recs, WFOuter r) →
      (handlerRun env recs).2 = true) := by
  constructor
  · intro env pre post hWF
    induction pre with
    | nil => rfl
    | cons rec rest ih =>
      obtain ⟨msg⟩ := rec
      have hr := hWF ⟨msg⟩ (List.mem_cons_self _ _)
      have ih2 := ih (fun r h2 => hWF r (List.mem_cons_of_mem _ h2))
      cases msg with
      | absent =>
        rw [List.cons_append]
        show handlerRun env (rest ++ OuterRec.mk SnsMessage.malformed :: post) =
          ((handlerRun env rest).1, false)
        exact ih2
      | malformed => exact hr.elim
      | parsed rs =>
        have hin : (processInnerList env rs).2 = true :=
          processInnerList_complete env rs hr
        rw [List.cons_append, handlerRun_parsed_true env rs _ hin, ih2,
          handlerRun_parsed_true env rs rest hin]
  · intro env recs hWF
    induction recs with
    | nil => rfl
    | cons rec rest ih =>
      obtain ⟨msg⟩ := rec
      have hr := hWF ⟨msg⟩ (List.mem_cons_self _ _)
      have ih2 := ih (fun r h2 => hWF r (List.mem_cons_of_mem _ h2))
      cases msg with
      | absent => exact ih2
      | malformed => exact hr.elim
      | parsed rs =>
        have hin : (processInnerList env rs).2 = true :=
          processInnerList_complete env rs hr
        rw [handlerRun_parsed_true env rs rest hin]
        exact ih2

/-- Witness for the amended C1: one well-formed outer record before the
malformed one — its trace is kept, the tail is dropped, completion is
`false`; and the well-formed payload alone completes with `true`. -/
theorem handler_malformed_aborts_wellformed_completes_witness :
    handlerRun envFail
      [OuterRec.mk (SnsMessage.parsed [S3Rec.mk "a/b/c"]),
       OuterRec.mk SnsMessage.malformed] =
      ((handlerRun envFail [OuterRec.mk (SnsMessage.parsed [S3Rec.mk "a/b/c"])]).1,
       false) ∧
    (handlerRun envFail [OuterRec.mk (SnsMessage.parsed [S3Rec.mk "a/b/c"])]).2 =
      true := by
  have hWF : ∀ r ∈ [OuterRec.mk (SnsMessage.parsed [S3Rec.mk "a/b/c"])], WFOuter r := by
    intro r hrm
    rw [List.mem_singleton] at hrm
    subst hrm
    intro s hs
    rw [List.mem_singleton] at hs
    subst hs
    exact ⟨"a/b/c", rfl⟩
  constructor
  · exact handler_malformed_aborts_wellformed_completes.1 envFail
      [OuterRec.mk (SnsMessage.parsed [S3Rec.mk "a/b/c"])] [] hWF
  · exact handler_malformed_aborts_wellformed_completes.2 envFail
      [OuterRec.mk (SnsMessage.parsed [S3Rec.mk "a/b/c"])] hWF

end PipelineReports
